import Mathlib

/-!
Shallow embedding of the l8web edge gateway (Go) and proofs about its
specification claims.

The embedding covers:
* token extraction from an HTTP request (`server/CoockieToken.go`, `extractToken`),
* the authenticated request dispatcher (`server/ServiceHandler.go`, `serveHttp`
  and `methodToAction`),
* the SNI certificate selector and the catch-all host router of the reverse
  proxy (`proxy/reverse_proxy.go`),
* web-service endpoint registration (`server/RestServer.go`, `RegisterWebService`),
* the `/auth` login handler (`server/WebService.go`, `Auth`).

External collaborators (security provider, overlay RPC, type registry,
certificate file loading, JSON marshalling) are parameters of the model.
Strings are modelled at the character level; the case folding used by the
code only ever has to distinguish ASCII letters, so `Char.toLower`
(ASCII folding) models Go's `strings.ToLower` on all inputs relevant here.
-/

namespace L8Web

/-- Models Go `strings.ToLower` (ASCII case folding suffices for every
comparison the gateway performs: "bearer", "mapreduce", host names). -/
def goToLower (s : String) : String :=
  String.mk (s.data.map Char.toLower)

/-- Contiguous-substring search on character lists (naive scan). -/
def listContains : List Char → List Char → Bool
  | [], sub => sub.isEmpty
  | c :: cs, sub => sub.isPrefixOf (c :: cs) || listContains cs sub

/-- Models Go `strings.Contains s sub`: `sub` occurs contiguously in `s`. -/
def strContains (s sub : String) : Bool :=
  listContains s.data sub.data

/-- Models Go `strings.HasPrefix s pre`. -/
def goHasPrefix (s pre : String) : Bool :=
  pre.data.isPrefixOf s.data

/-- Models Go `s[n:]` (dropping the first `n` characters). -/
def goDrop (s : String) (n : Nat) : String :=
  String.mk (s.data.drop n)

/-- Splits a character list at the first space: everything before it,
and everything from the space on (the space included). -/
def breakAtSpace : List Char → List Char × List Char
  | [] => ([], [])
  | c :: cs =>
    if c = ' ' then ([], c :: cs)
    else
      let r := breakAtSpace cs
      (c :: r.1, r.2)

/-- Models Go `strings.SplitN s " " 2`: split at the first space, the
second part keeps the remainder intact. -/
def splitN2Space (s : String) : List String :=
  match breakAtSpace s.data with
  | (a, []) => [String.mk a]
  | (a, _ :: rest) => [String.mk a, String.mk rest]

/-- An inbound HTTP request as seen by the token extractor: cookie jar
(`r.Cookie` returns an error exactly when the cookie is absent, modelled
by `none`), header lookup (`Header.Get`, empty string when absent) and
query-parameter lookup (`URL.Query().Get`, empty string when absent). -/
structure GoRequest where
  cookies : String → Option String
  headers : String → String
  query : String → String

/-- `BearerCookieName` from `CoockieToken.go`. -/
def bearerCookieName : String := "bToken"

/-- `extractToken` from `server/CoockieToken.go`: (1) the `bToken` cookie,
(2) the `Authorization` header when it parses as `<scheme> <token>` with
scheme `bearer` case-insensitively, (3) the `token` query parameter. -/
def extractToken (r : GoRequest) : String :=
  let fromQuery : String :=
    let token := r.query "token"
    if token ≠ "" then token else ""
  let fromHeader : String :=
    let authHeader := r.headers "Authorization"
    if authHeader ≠ "" then
      let parts := splitN2Space authHeader
      if parts.length == 2 && goToLower (parts.headD "") == "bearer" then
        parts.getD 1 ""
      else fromQuery
    else fromQuery
  match r.cookies bearerCookieName with
  | some v => if v ≠ "" then v else fromHeader
  | none => fromHeader

/-- The overlay actions (`ifs.Action`) used by the dispatcher. -/
inductive Action where
  | POST | GET | DELETE | PUT | PATCH
  | MapR_POST | MapR_GET | MapR_DELETE | MapR_PUT | MapR_PATCH
deriving DecidableEq, Repr

/-- A resolved request-body message: either the generic query type
(`*l8api.L8Query`, carrying its `Text`) or any other protobuf message.
`methodToAction` receives `none` for Go's `nil` message. -/
inductive ProtoBody where
  | l8query (text : String)
  | other
deriving DecidableEq, Repr

/-- `methodToAction` from `server/ServiceHandler.go` (dispatcher version):
a generic query whose text contains `"mapreduce"` case-insensitively
upgrades the verb's action to its MapReduce variant; an unrecognized
method falls through to `GET`. -/
def methodToAction (method : String) (body : Option ProtoBody) : Action :=
  let isMapReduce : Bool :=
    match body with
    | some (.l8query text) => strContains (goToLower text) "mapreduce"
    | _ => false
  if method == "POST" then (if isMapReduce then .MapR_POST else .POST)
  else if method == "GET" then (if isMapReduce then .MapR_GET else .GET)
  else if method == "DELETE" then (if isMapReduce then .MapR_DELETE else .DELETE)
  else if method == "PUT" then (if isMapReduce then .MapR_PUT else .PUT)
  else if method == "PATCH" then (if isMapReduce then .MapR_PATCH else .PATCH)
  else .GET

/-- The two TFA sentinel identities recognized by the dispatcher. -/
def tfaSetupSentinel : String := "Token Setup TFA"

/-- Second TFA sentinel identity. -/
def tfaVerifySentinel : String := "Token Need TFA Verification"

/-- The dispatcher's bearer-scheme stripping before the federation lookup
(`serveHttp`): when the token is longer than 7 characters and starts with
`bearer` or `Bearer`, drop the first 7 characters. -/
def stripBearerScheme (bearer : String) : String :=
  if bearer.data.length > 7 && (goHasPrefix bearer "bearer" || goHasPrefix bearer "Bearer")
  then goDrop bearer 7
  else bearer

/-- Outcome of the dispatcher's authorization phase: pass with an identity,
generic `401` with empty body, or `401` carrying a TFA sentinel body. -/
inductive AuthOutcome where
  | authorized (aaaid : String)
  | unauthorized
  | unauthorizedTfa (body : String)
deriving DecidableEq, Repr

/-- The authorization phase of `ServiceHandler.serveHttp`: reject an empty
`Authorization` header; validate the raw header value; surface the two TFA
sentinels verbatim; otherwise, on validation failure, strip the bearer
scheme and consult the federation map (`adjacentTokens`), revalidating
with the mapped adjacent token when it is non-empty. `validate` models
`Security().ValidateToken` (identity, ok); `adjacentTokens` models the Go
map lookup (`none` for an absent key, which yields `("", false)` in Go). -/
def authPhase (authEnabled : Bool) (authHeader : String)
    (validate : String → String × Bool)
    (adjacentTokens : String → Option String) : AuthOutcome :=
  if authEnabled then
    if authHeader = "" then .unauthorized
    else
      let v := validate authHeader
      if !v.2 && (v.1 == tfaSetupSentinel || v.1 == tfaVerifySentinel) then
        .unauthorizedTfa v.1
      else
        let st : String × Bool :=
          if !v.2 then
            let bearer := stripBearerScheme authHeader
            match adjacentTokens bearer with
            | some aToken => if aToken ≠ "" then validate aToken else (v.1, true)
            | none => (v.1, false)
          else v
        if !st.2 then .unauthorized else .authorized st.1
  else .authorized ""

/-- The overlay call's result as the dispatcher consumes it:
`elems.Error()` and `elems.AsList(...)`. -/
structure OverlayResult (RespMsg : Type) where
  err : Option String
  asList : Except String RespMsg

/-- An HTTP response: status code and the concatenation of everything
written to the body. -/
structure HttpResponse where
  status : Nat
  body : String
deriving DecidableEq, Repr

/-- `ServiceHandler.serveHttp` end to end. Collaborators are parameters:
`validate` (security provider), `adjacentTokens` (federation map),
`bodyRead` (`io.ReadAll` of the request body), `queryBody` (the `body`
query parameter), `protos` (`webService.Protos`, resolving the typed body
message), `overlay` (the overlay request on whichever addressing branch
applies), `typeName` and `marshal` (protojson). -/
def serveHttpModel {RespMsg : Type}
    (authEnabled : Bool) (authHeader : String)
    (validate : String → String × Bool)
    (adjacentTokens : String → Option String)
    (method : String)
    (bodyRead : Except String String)
    (queryBody : String)
    (protos : String → Action → Except String (Option ProtoBody))
    (overlay : Action → Option ProtoBody → String → OverlayResult RespMsg)
    (typeName : RespMsg → String)
    (marshal : RespMsg → Except String String) : HttpResponse :=
  match authPhase authEnabled authHeader validate adjacentTokens with
  | .unauthorized => { status := 401, body := "" }
  | .unauthorizedTfa id => { status := 401, body := id }
  | .authorized aaaid =>
    match bodyRead with
    | .error e =>
      { status := 400, body := "Failed to read body for method " ++ method ++ "\n" ++ e }
    | .ok data0 =>
      let data := if goToLower method == "get" && data0 == "" then queryBody else data0
      let action0 := methodToAction method none
      match protos data action0 with
      | .error e =>
        { status := 400, body := "Cannot find pb for method " ++ method ++ "\n" ++ e }
      | .ok body =>
        let action := methodToAction method body
        let elems := overlay action body aaaid
        match elems.err with
        | some e => { status := 400, body := "Error from single request:" ++ e }
        | none =>
          match elems.asList with
          | .error _ => { status := 200, body := "\x7b\x7d" }
          | .ok response =>
            match marshal response with
            | .error e =>
              { status := 200, body := "Erorr marshaling:" ++ typeName response ++ e }
            | .ok j => { status := 200, body := j }

/-- A proxy route: domain set, backend target port, certificate files. -/
structure RouteConfig where
  domains : List String
  targetPort : String
  certFile : String
  keyFile : String
deriving DecidableEq, Repr

/-- A listener: its port and its ordered route list (first route is the
fallback). -/
structure ListenerConfig where
  listenPort : String
  routes : List RouteConfig
deriving DecidableEq, Repr

/-- `getCertificateForListener` from `proxy/reverse_proxy.go`, with the
disk load (`tls.LoadX509KeyPair`) abstracted into the returned
certificate/key file pair: lower-case the ClientHello hostname, return
the first route whose domain list contains it, else fall back to the
first route; error only when the listener has no routes at all. -/
def getCertificateForListener (serverName : String) (listener : ListenerConfig) :
    Except String (String × String) :=
  let host := goToLower serverName
  match listener.routes.find? (fun route => route.domains.contains host) with
  | some route => .ok (route.certFile, route.keyFile)
  | none =>
    match listener.routes with
    | [] => .error ("no certificate found for host: " ++ host)
    | r :: _ => .ok (r.certFile, r.keyFile)

/-- Models Go `strings.Split s c` followed by `[0]`: the part before the
first occurrence of `c`. -/
def goSplitFirst (c : Char) (s : String) : String :=
  String.mk (s.data.takeWhile (fun x => x ≠ c))

/-- The route selected by the catch-all handler in `startListener`:
lower-case the Host header, strip the port suffix, and return the first
route having a domain equal to the stripped (or the full) host. -/
def routeForHost (hostHeader : String) (listener : ListenerConfig) : Option RouteConfig :=
  let host := goToLower hostHeader
  let hostWithoutPort := goSplitFirst ':' host
  listener.routes.find? (fun route =>
    route.domains.any (fun domain => hostWithoutPort == domain || host == domain))

/-- What the catch-all handler does with a request: forward to a backend
port, or answer `502 "Unknown host"`. -/
inductive ProxyDecision where
  | forward (targetPort : String)
  | unknownHost
deriving DecidableEq, Repr

/-- The catch-all `/` handler of `startListener`: forward to the matched
route's target port, else respond `502 Unknown host`. -/
def catchAllHandler (hostHeader : String) (listener : ListenerConfig) : ProxyDecision :=
  match routeForHost hostHeader listener with
  | some route => .forward route.targetPort
  | none => .unknownHost

/-- The registration state of the REST server: the `endPoints` sync map
(keys present) and the patterns registered on the HTTP mux
(`http.DefaultServeMux.HandleFunc`), newest first. -/
structure ServerState where
  endPoints : List String
  mux : List String
deriving DecidableEq, Repr

/-- `patternOf` from `server/RestServer.go`:
`Prefix + itoa(serviceArea) + "/" + serviceName`. -/
def patternOf (pfx : String) (serviceArea : Nat) (serviceName : String) : String :=
  pfx ++ toString serviceArea ++ "/" ++ serviceName

/-- `RegisterWebService` from `server/RestServer.go`, restricted to its
effect on the registration state: if the pattern is already in the
`endPoints` map do nothing, otherwise record it and register the handler
on the mux. -/
def registerWebService (pfx : String) (serviceArea : Nat) (serviceName : String)
    (s : ServerState) : ServerState :=
  let path := patternOf pfx serviceArea serviceName
  if s.endPoints.contains path then s
  else { endPoints := path :: s.endPoints, mux := path :: s.mux }

/-- The `l8api.AuthToken` message marshalled into the `/auth` response
body. -/
structure AuthTokenMsg where
  token : String
  error : String
  needTfa : Bool
  setupTfa : Bool
deriving DecidableEq, Repr

/-- An `http.Cookie` as set by the `/auth` handler. -/
structure GoCookie where
  name : String
  value : String
  path : String
  maxAge : Nat
  httpOnly : Bool
  secure : Bool
  sameSiteStrict : Bool
deriving DecidableEq, Repr

/-- The `/auth` handler's response: status, plain-text body (400 paths),
marshalled `AuthToken` body (401/200 paths) and the cookie, if any. -/
structure AuthHttpResponse where
  status : Nat
  textBody : String
  jsonBody : Option AuthTokenMsg
  cookie : Option GoCookie
deriving DecidableEq, Repr

/-- `WebService.Auth` from `server/WebService.go`. `bodyRead` models
`io.ReadAll`, `parseUser` the protojson unmarshal into `AuthUser`,
`authenticate` the primary provider (`token, needTFA, setupTFA, err`),
`adjacents` the adjacent networks' providers. Returns the response and
the `(primaryToken, adjacentToken)` entries added to the federation map,
in loop order. -/
def authHandler
    (bodyRead : Except String String)
    (parseUser : String → Except String (String × String))
    (authenticate : String → String → Except String (String × Bool × Bool))
    (adjacents : List (String → String → Except String (String × Bool × Bool))) :
    AuthHttpResponse × List (String × String) :=
  match bodyRead with
  | .error e =>
    ({ status := 400, textBody := "Failed to read user/pass #1" ++ e,
       jsonBody := none, cookie := none }, [])
  | .ok data =>
    match parseUser data with
    | .error e =>
      ({ status := 400, textBody := "Failed to read user/pass #2" ++ e,
         jsonBody := none, cookie := none }, [])
    | .ok (user, pass) =>
      match authenticate user pass with
      | .error e =>
        ({ status := 401, textBody := "",
           jsonBody := some { token := "", error := e, needTfa := false, setupTfa := false },
           cookie := none }, [])
      | .ok (token, needTFA, setupTFA) =>
        let updates := adjacents.foldl
          (fun acc adj =>
            match adj user pass with
            | .ok (aToken, _, _) => acc ++ [(token, aToken)]
            | .error _ => acc) []
        ({ status := 200, textBody := "",
           jsonBody := some { token := token, error := "",
                              needTfa := needTFA, setupTfa := setupTFA },
           cookie := some { name := bearerCookieName, value := token, path := "/",
                            maxAge := 86400, httpOnly := true, secure := true,
                            sameSiteStrict := true } }, updates)

/-- Case-insensitive equality of two strings (the relation the spec claims
the proxy uses for hostname/domain matching). -/
def ciEqual (a b : String) : Bool :=
  goToLower a == goToLower b

/-- A request carrying a bearer cookie `A`, header `Authorization: Bearer B`
and query parameter `token=C` simultaneously. -/
def c1Request : GoRequest where
  cookies := fun n => if n = "bToken" then some "A" else none
  headers := fun n => if n = "Authorization" then "Bearer B" else ""
  query := fun n => if n = "token" then "C" else ""

/-- A request like `c1Request` but whose cookie jar is empty. -/
def c1RequestNoCookie (C : String) : GoRequest where
  cookies := fun _ => none
  headers := fun n => if n = "Authorization" then "Bearer B" else ""
  query := fun n => if n = "token" then C else ""

/-- A request carrying only a `token` query parameter. -/
def c1RequestQueryOnly (C : String) : GoRequest where
  cookies := fun _ => none
  headers := fun _ => ""
  query := fun n => if n = "token" then C else ""

/-- A request with a non-empty cookie next to header and query sources. -/
def c1RequestCookie (A C : String) : GoRequest where
  cookies := fun n => if n = bearerCookieName then some A else none
  headers := fun n => if n = "Authorization" then "Bearer B" else ""
  query := fun n => if n = "token" then C else ""

/-- A two-route listener whose second route's domain is spelled with
upper-case letters, used to separate case-insensitive matching from the
lowercase-normalized matching the code performs. -/
def c4Listener : ListenerConfig where
  listenPort := ":443"
  routes := [{ domains := ["a.com"], targetPort := "1000",
               certFile := "c1.pem", keyFile := "k1.pem" },
             { domains := ["UPPER.com"], targetPort := "2000",
               certFile := "c2.pem", keyFile := "k2.pem" }]

/-- Same shape as `c4Listener`, for the catch-all host router. -/
def c5Listener : ListenerConfig where
  listenPort := ":443"
  routes := [{ domains := ["a.com"], targetPort := "1000",
               certFile := "c1.pem", keyFile := "k1.pem" },
             { domains := ["UP.com"], targetPort := "2000",
               certFile := "c2.pem", keyFile := "k2.pem" }]

end L8Web

section ScratchChecks

example : L8Web.goToLower "Bearer" = "bearer" := by decide

example : L8Web.strContains "a MapReduce query" "apRe" = true := by decide

example : L8Web.splitN2Space "Bearer b1 b2" = ["Bearer", "b1 b2"] := by decide

example :
    L8Web.extractToken
      { cookies := fun n => if n = "bToken" then some "A" else none
        headers := fun n => if n = "Authorization" then "Bearer B" else ""
        query := fun n => if n = "token" then "C" else "" } = "A" := by decide

example :
    L8Web.methodToAction "POST" (some (.l8query "do a MapReduce now")) =
      .MapR_POST := by decide

example : L8Web.methodToAction "OPTIONS" (some .other) = .GET := by decide

example :
    L8Web.authPhase true "tok"
      (fun _ => ("Token Setup TFA", false)) (fun _ => none) =
      .unauthorizedTfa "Token Setup TFA" := by decide

example :
    L8Web.authPhase true "tok"
      (fun t => if t = "adj" then ("alice", true) else ("", false))
      (fun t => if t = "tok" then some "adj" else none) =
      .authorized "alice" := by decide

example :
    L8Web.authPhase true "Bearer 1234"
      (fun t => if t = "adj" then ("alice", true) else ("", false))
      (fun t => if t = "1234" then some "adj" else none) =
      .authorized "alice" := by decide

example :
    L8Web.catchAllHandler "UP.com"
      { listenPort := ":443"
        routes := [{ domains := ["a.com"], targetPort := "1000",
                     certFile := "c1", keyFile := "k1" },
                   { domains := ["UP.com"], targetPort := "2000",
                     certFile := "c2", keyFile := "k2" }] } =
      .unknownHost := by decide

example :
    L8Web.catchAllHandler "a.com:443"
      { listenPort := ":443"
        routes := [{ domains := ["a.com"], targetPort := "1000",
                     certFile := "c1", keyFile := "k1" }] } =
      .forward "1000" := by decide

example :
    L8Web.getCertificateForListener "UPPER.com"
      { listenPort := ":443"
        routes := [{ domains := ["a.com"], targetPort := "1000",
                     certFile := "c1", keyFile := "k1" },
                   { domains := ["UPPER.com"], targetPort := "2000",
                     certFile := "c2", keyFile := "k2" }] } =
      .ok ("c1", "k1") := by rfl

example :
    L8Web.registerWebService "/api/" 3 "svc"
      (L8Web.registerWebService "/api/" 3 "svc"
        { endPoints := [], mux := [] }) =
      { endPoints := ["/api/3/svc"], mux := ["/api/3/svc"] } := by decide

example :
    (@L8Web.serveHttpModel Unit false "" (fun _ => ("", false))
      (fun _ => none) "POST" (.ok "d") "" (fun _ _ => .ok (some .other))
      (fun _ _ _ => { err := none, asList := .error "boom" })
      (fun _ => "T") (fun _ => .ok "js")) =
      { status := 200, body := "\x7b\x7d" } := by decide

end ScratchChecks

namespace L8Web

/-- Claim C1 fails on the code: the spec gives the `Authorization` header
top extraction priority, but `extractToken` consults the `bToken` cookie
first. A request carrying cookie `A`, header `Bearer B` and query
`token=C` yields `A`, not `B`. -/
theorem extractToken_header_priority_cex :
    extractToken c1Request = "A" ∧ ("A" : String) ≠ "B" :=
  ⟨by decide, by decide⟩

/-- Claim C1 (amended): the extraction order of `extractToken` is
(1) the `bToken` cookie, (2) the `Authorization: Bearer` header,
(3) the `token` query parameter; the first non-empty source wins and
sources are never merged, so when all three are present the cookie's
value is the one used. -/
theorem extractToken_cookie_first_order (A C : String) (hA : A ≠ "") :
    extractToken (c1RequestCookie A C) = A ∧
    extractToken (c1RequestNoCookie C) = "B" ∧
    extractToken (c1RequestQueryOnly C) = C := by
  refine ⟨?_, rfl, ?_⟩
  · simp [extractToken, c1RequestCookie, bearerCookieName, hA]
  · by_cases h : C = "" <;> simp [extractToken, c1RequestQueryOnly, h]

/-- Witness for the amended C1 at concrete tokens. -/
theorem extractToken_cookie_first_order_witness :
    extractToken (c1RequestCookie "A" "C") = "A" ∧
    extractToken (c1RequestNoCookie "C") = "B" ∧
    extractToken (c1RequestQueryOnly "C") = "C" :=
  extractToken_cookie_first_order "A" "C" (by decide)

/-- Claim C10: any HTTP method string other than POST, GET, DELETE, PUT
and PATCH maps to the plain GET action, whatever the body message is. -/
theorem methodToAction_unrecognized_get (method : String) (body : Option ProtoBody)
    (h1 : method ≠ "POST") (h2 : method ≠ "GET") (h3 : method ≠ "DELETE")
    (h4 : method ≠ "PUT") (h5 : method ≠ "PATCH") :
    methodToAction method body = .GET := by
  simp [methodToAction, h1, h2, h3, h4, h5]

/-- Witness for C10 at the concrete method `OPTIONS`. -/
theorem methodToAction_unrecognized_get_witness :
    methodToAction "OPTIONS" (some .other) = .GET :=
  methodToAction_unrecognized_get "OPTIONS" (some .other)
    (by decide) (by decide) (by decide) (by decide) (by decide)

/-- Claim C6: a generic query body whose text contains `"mapreduce"`
case-insensitively upgrades each of the five verbs to its MapReduce
action variant; any other body yields the plain verb action. -/
theorem methodToAction_mapreduce_upgrade (text : String) (body : Option ProtoBody)
    (hQuery : strContains (goToLower text) "mapreduce" = true)
    (hOther : ∀ t, body = some (.l8query t) → strContains (goToLower t) "mapreduce" = false) :
    (methodToAction "POST" (some (.l8query text)) = .MapR_POST ∧
     methodToAction "GET" (some (.l8query text)) = .MapR_GET ∧
     methodToAction "PUT" (some (.l8query text)) = .MapR_PUT ∧
     methodToAction "PATCH" (some (.l8query text)) = .MapR_PATCH ∧
     methodToAction "DELETE" (some (.l8query text)) = .MapR_DELETE) ∧
    (methodToAction "POST" body = .POST ∧
     methodToAction "GET" body = .GET ∧
     methodToAction "PUT" body = .PUT ∧
     methodToAction "PATCH" body = .PATCH ∧
     methodToAction "DELETE" body = .DELETE) := by
  constructor
  · refine ⟨?_, ?_, ?_, ?_, ?_⟩ <;> simp [methodToAction, hQuery]
  · cases body with
    | none => refine ⟨?_, ?_, ?_, ?_, ?_⟩ <;> simp [methodToAction]
    | some b =>
      cases b with
      | other => refine ⟨?_, ?_, ?_, ?_, ?_⟩ <;> simp [methodToAction]
      | l8query t =>
        have h := hOther t rfl
        refine ⟨?_, ?_, ?_, ?_, ?_⟩ <;> simp [methodToAction, h]

/-- Witness for C6: a concrete MapReduce query and a concrete
non-query body. -/
theorem methodToAction_mapreduce_upgrade_witness :
    (methodToAction "POST" (some (.l8query "run MapReduce now")) = .MapR_POST ∧
     methodToAction "GET" (some (.l8query "run MapReduce now")) = .MapR_GET ∧
     methodToAction "PUT" (some (.l8query "run MapReduce now")) = .MapR_PUT ∧
     methodToAction "PATCH" (some (.l8query "run MapReduce now")) = .MapR_PATCH ∧
     methodToAction "DELETE" (some (.l8query "run MapReduce now")) = .MapR_DELETE) ∧
    (methodToAction "POST" (some .other) = .POST ∧
     methodToAction "GET" (some .other) = .GET ∧
     methodToAction "PUT" (some .other) = .PUT ∧
     methodToAction "PATCH" (some .other) = .PATCH ∧
     methodToAction "DELETE" (some .other) = .DELETE) :=
  methodToAction_mapreduce_upgrade "run MapReduce now" (some .other)
    (by decide) (by intro t h; simp at h)

/-- Claim C7: registering the same (serviceArea, serviceName) endpoint
twice yields exactly one mux registration for its pattern, and the second
call is a no-op on the registration state. -/
theorem registerWebService_idempotent (pfx serviceName : String) (serviceArea : Nat)
    (s : ServerState)
    (hMux : patternOf pfx serviceArea serviceName ∉ s.mux)
    (hEp : patternOf pfx serviceArea serviceName ∉ s.endPoints) :
    registerWebService pfx serviceArea serviceName
        (registerWebService pfx serviceArea serviceName s) =
      registerWebService pfx serviceArea serviceName s ∧
    (registerWebService pfx serviceArea serviceName
        (registerWebService pfx serviceArea serviceName s)).mux.count
        (patternOf pfx serviceArea serviceName) = 1 := by
  have h1 : registerWebService pfx serviceArea serviceName s =
      { endPoints := patternOf pfx serviceArea serviceName :: s.endPoints,
        mux := patternOf pfx serviceArea serviceName :: s.mux } := by
    simp [registerWebService, hEp]
  have h2 : registerWebService pfx serviceArea serviceName
      { endPoints := patternOf pfx serviceArea serviceName :: s.endPoints,
        mux := patternOf pfx serviceArea serviceName :: s.mux } =
      { endPoints := patternOf pfx serviceArea serviceName :: s.endPoints,
        mux := patternOf pfx serviceArea serviceName :: s.mux } := by
    simp [registerWebService]
  refine ⟨by rw [h1, h2], ?_⟩
  rw [h1, h2]
  simp [List.count_cons_self, List.count_eq_zero_of_not_mem hMux]

/-- Witness for C7 from the empty registration state. -/
theorem registerWebService_idempotent_witness :
    registerWebService "/api/" 3 "svc"
        (registerWebService "/api/" 3 "svc" { endPoints := [], mux := [] }) =
      registerWebService "/api/" 3 "svc" { endPoints := [], mux := [] } ∧
    (registerWebService "/api/" 3 "svc"
        (registerWebService "/api/" 3 "svc" { endPoints := [], mux := [] })).mux.count
        (patternOf "/api/" 3 "svc") = 1 :=
  registerWebService_idempotent "/api/" "svc" 3 { endPoints := [], mux := [] }
    (by decide) (by decide)

end L8Web

namespace L8Web

/-- Claim C2: with authentication enabled and direct validation failing on
a non-sentinel identity, a token whose bearer-stripped form is mapped in
the federation map to a non-empty adjacent token that validates
successfully authorizes the request; a token absent from the map is
rejected with the generic 401. -/
theorem authPhase_federation_fallback
    (authHeader id : String) (validate : String → String × Bool)
    (adjacentTokens : String → Option String)
    (hHdr : authHeader ≠ "")
    (hFail : validate authHeader = (id, false))
    (hNotSetup : id ≠ tfaSetupSentinel)
    (hNotVerify : id ≠ tfaVerifySentinel) :
    (∀ aToken id2, adjacentTokens (stripBearerScheme authHeader) = some aToken →
        aToken ≠ "" → validate aToken = (id2, true) →
        authPhase true authHeader validate adjacentTokens = .authorized id2) ∧
    (adjacentTokens (stripBearerScheme authHeader) = none →
        authPhase true authHeader validate adjacentTokens = .unauthorized) := by
  constructor
  · intro aToken id2 hLook hNe hVal
    simp [authPhase, hHdr, hFail, hNotSetup, hNotVerify, hLook, hNe, hVal]
  · intro hLook
    simp [authPhase, hHdr, hFail, hNotSetup, hNotVerify, hLook]

/-- Witness for C2: the federation map sends the stripped token `1234`
to adjacent token `adj`, which validates as `alice`; the token `9999`
is absent from the map and is rejected. -/
theorem authPhase_federation_fallback_witness :
    authPhase true "Bearer 1234"
        (fun t => if t = "adj" then ("alice", true) else ("nobody", false))
        (fun t => if t = "1234" then some "adj" else none) = .authorized "alice" ∧
    authPhase true "Bearer 9999"
        (fun t => if t = "adj" then ("alice", true) else ("nobody", false))
        (fun t => if t = "1234" then some "adj" else none) = .unauthorized := by
  constructor
  · exact (authPhase_federation_fallback "Bearer 1234" "nobody"
        (fun t => if t = "adj" then ("alice", true) else ("nobody", false))
        (fun t => if t = "1234" then some "adj" else none)
        (by decide) (by decide) (by decide) (by decide)).1
      "adj" "alice" (by decide) (by decide) (by decide)
  · exact (authPhase_federation_fallback "Bearer 9999" "nobody"
        (fun t => if t = "adj" then ("alice", true) else ("nobody", false))
        (fun t => if t = "1234" then some "adj" else none)
        (by decide) (by decide) (by decide) (by decide)).2 (by decide)

/-- Claim C3: a token whose validation fails with one of the two TFA
sentinel identities gets a 401 response carrying the sentinel text
verbatim as its body, independent of the federation map (the fallback is
never consulted), and that response differs from the generic empty-body
401 rejection. -/
theorem serveHttp_tfa_sentinel {RespMsg : Type}
    (authHeader id : String) (validate : String → String × Bool)
    (hHdr : authHeader ≠ "")
    (hFail : validate authHeader = (id, false))
    (hSentinel : id = tfaSetupSentinel ∨ id = tfaVerifySentinel) :
    (∀ (adjacentTokens : String → Option String) (method queryBody : String)
        (bodyRead : Except String String)
        (protos : String → Action → Except String (Option ProtoBody))
        (overlay : Action → Option ProtoBody → String → OverlayResult RespMsg)
        (typeName : RespMsg → String) (marshal : RespMsg → Except String String),
        serveHttpModel true authHeader validate adjacentTokens method bodyRead
          queryBody protos overlay typeName marshal =
          { status := 401, body := id }) ∧
    ({ status := 401, body := id } : HttpResponse) ≠ { status := 401, body := "" } := by
  have hAuth : ∀ adjacentTokens,
      authPhase true authHeader validate adjacentTokens = .unauthorizedTfa id := by
    intro adj
    rcases hSentinel with h | h <;> simp [authPhase, hHdr, hFail, h]
  refine ⟨?_, ?_⟩
  · intro adj method queryBody bodyRead protos overlay typeName marshal
    simp [serveHttpModel, hAuth adj]
  · rcases hSentinel with h | h <;> subst h <;> decide

/-- Witness for C3 at the concrete setup sentinel. -/
theorem serveHttp_tfa_sentinel_witness :
    @serveHttpModel Unit true "tok"
        (fun _ => ("Token Setup TFA", false)) (fun _ => none) "GET" (.ok "")
        "" (fun _ _ => .ok none)
        (fun _ _ _ => { err := none, asList := .error "x" })
        (fun _ => "") (fun _ => .ok "") =
      { status := 401, body := "Token Setup TFA" } ∧
    ({ status := 401, body := "Token Setup TFA" } : HttpResponse) ≠
      { status := 401, body := "" } := by
  have h := @serveHttp_tfa_sentinel Unit "tok" "Token Setup TFA"
      (fun _ => ("Token Setup TFA", false)) (by decide) rfl (Or.inl rfl)
  exact ⟨h.1 (fun _ => none) "GET" "" (.ok "") (fun _ _ => .ok none)
      (fun _ _ _ => { err := none, asList := .error "x" }) (fun _ => "")
      (fun _ => .ok ""), h.2⟩

/-- Claim C8: when the overlay call reports no error but flattening the
result list fails, the dispatcher responds 200 with body exactly the
empty JSON object. -/
theorem serveHttp_flatten_empty_json {RespMsg : Type}
    (authEnabled : Bool) (authHeader : String)
    (validate : String → String × Bool)
    (adjacentTokens : String → Option String)
    (method data0 queryBody aaaid e : String)
    (protos : String → Action → Except String (Option ProtoBody))
    (overlay : Action → Option ProtoBody → String → OverlayResult RespMsg)
    (typeName : RespMsg → String)
    (marshal : RespMsg → Except String String)
    (body : Option ProtoBody)
    (hAuth : authPhase authEnabled authHeader validate adjacentTokens = .authorized aaaid)
    (hProtos : protos (if goToLower method == "get" && data0 == "" then queryBody else data0)
        (methodToAction method none) = .ok body)
    (hErr : (overlay (methodToAction method body) body aaaid).err = none)
    (hList : (overlay (methodToAction method body) body aaaid).asList = .error e) :
    serveHttpModel authEnabled authHeader validate adjacentTokens method (.ok data0)
        queryBody protos overlay typeName marshal =
      { status := 200, body := "\x7b\x7d" } := by
  have hProtos2 : protos (if goToLower method = "get" ∧ data0 = "" then queryBody else data0)
      (methodToAction method none) = .ok body := by
    simpa using hProtos
  simp [serveHttpModel, hAuth, hProtos2, hErr, hList]

/-- Witness for C8 with a concrete failing flattening. -/
theorem serveHttp_flatten_empty_json_witness :
    @serveHttpModel Unit false "" (fun _ => ("", false)) (fun _ => none)
        "POST" (.ok "d") "" (fun _ _ => .ok (some .other))
        (fun _ _ _ => { err := none, asList := .error "boom" })
        (fun _ => "T") (fun _ => .ok "js") =
      { status := 200, body := "\x7b\x7d" } :=
  serveHttp_flatten_empty_json false "" (fun _ => ("", false)) (fun _ => none)
    "POST" "d" "" "" "boom" (fun _ _ => .ok (some .other))
    (fun _ _ _ => { err := none, asList := .error "boom" })
    (fun _ => "T") (fun _ => .ok "js") (some .other) rfl rfl rfl rfl

/-- Claim C9: when the primary provider rejects the parsed credentials,
`/auth` answers 401 with the provider's error text in the AuthToken body
and sets no cookie; on success it answers 200 with token and TFA flags in
the body and sets the HTTP-only, Secure, SameSite=Strict bearer cookie
with the fixed expiry. -/
theorem authHandler_reject_no_cookie
    (data user pass : String)
    (parseUser : String → Except String (String × String))
    (authenticate : String → String → Except String (String × Bool × Bool))
    (adjacents : List (String → String → Except String (String × Bool × Bool)))
    (hParse : parseUser data = .ok (user, pass)) :
    (∀ e, authenticate user pass = .error e →
        authHandler (.ok data) parseUser authenticate adjacents =
          ({ status := 401, textBody := "",
             jsonBody := some { token := "", error := e, needTfa := false,
                                setupTfa := false },
             cookie := none }, [])) ∧
    (∀ token needTFA setupTFA,
        authenticate user pass = .ok (token, needTFA, setupTFA) →
        (authHandler (.ok data) parseUser authenticate adjacents).1.status = 200 ∧
        (authHandler (.ok data) parseUser authenticate adjacents).1.jsonBody =
          some { token := token, error := "", needTfa := needTFA,
                 setupTfa := setupTFA } ∧
        (authHandler (.ok data) parseUser authenticate adjacents).1.cookie =
          some { name := bearerCookieName, value := token, path := "/",
                 maxAge := 86400, httpOnly := true, secure := true,
                 sameSiteStrict := true }) := by
  constructor
  · intro e hAuth
    simp [authHandler, hParse, hAuth]
  · intro token needTFA setupTFA hAuth
    refine ⟨?_, ?_, ?_⟩ <;> simp [authHandler, hParse, hAuth]

/-- Witness for C9: one rejecting and one accepting provider at concrete
credentials. -/
theorem authHandler_reject_no_cookie_witness :
    authHandler (.ok "d") (fun _ => .ok ("u", "p"))
        (fun _ _ => .error "bad credentials") [] =
      ({ status := 401, textBody := "",
         jsonBody := some { token := "", error := "bad credentials",
                            needTfa := false, setupTfa := false },
         cookie := none }, []) ∧
    ((authHandler (.ok "d") (fun _ => .ok ("u", "p"))
        (fun _ _ => .ok ("tok77", true, false)) []).1.status = 200 ∧
     (authHandler (.ok "d") (fun _ => .ok ("u", "p"))
        (fun _ _ => .ok ("tok77", true, false)) []).1.jsonBody =
       some { token := "tok77", error := "", needTfa := true, setupTfa := false } ∧
     (authHandler (.ok "d") (fun _ => .ok ("u", "p"))
        (fun _ _ => .ok ("tok77", true, false)) []).1.cookie =
       some { name := bearerCookieName, value := "tok77", path := "/",
              maxAge := 86400, httpOnly := true, secure := true,
              sameSiteStrict := true }) := by
  constructor
  · exact (authHandler_reject_no_cookie "d" "u" "p" (fun _ => .ok ("u", "p"))
      (fun _ _ => .error "bad credentials") [] rfl).1 "bad credentials" rfl
  · exact (authHandler_reject_no_cookie "d" "u" "p" (fun _ => .ok ("u", "p"))
      (fun _ _ => .ok ("tok77", true, false)) [] rfl).2 "tok77" true false rfl

end L8Web

namespace L8Web

/-- If a character does not occur in a string, splitting at its first
occurrence returns the whole string. -/
theorem goSplitFirst_of_not_mem {c : Char} {s : String} (h : c ∉ s.data) :
    goSplitFirst c s = s := by
  unfold goSplitFirst
  have : ∀ l : List Char, c ∉ l → l.takeWhile (fun x => x ≠ c) = l := by
    intro l
    induction l with
    | nil => intro _; rfl
    | cons x xs ih =>
      intro hl
      have hx : x ≠ c := fun e => hl (e ▸ List.mem_cons_self x xs)
      have hxs : c ∉ xs := fun hm => hl (List.mem_cons_of_mem _ hm)
      simp [List.takeWhile_cons, hx, ih hxs]
      exact fun y hy e => hxs (e ▸ hy)
  rw [this s.data h]

/-- Claim C4 fails on the code: the hostname `UPPER.com` matches the
second route's configured domain `UPPER.com` case-insensitively (indeed
verbatim), yet the certificate selector lower-cases only the hostname and
therefore falls back to the FIRST route's certificate instead of the
second route's. -/
theorem getCertificate_ci_match_cex :
    (c4Listener.routes.get ⟨1, by decide⟩).domains = ["UPPER.com"] ∧
    ciEqual "UPPER.com" "UPPER.com" = true ∧
    getCertificateForListener "UPPER.com" c4Listener = .ok ("c1.pem", "k1.pem") ∧
    (c4Listener.routes.get ⟨1, by decide⟩).certFile = "c2.pem" :=
  ⟨by decide, by decide, rfl, by decide⟩

/-- Claim C4 (amended): the selector compares the LOWER-CASED ClientHello
hostname verbatim against each configured domain (case-insensitive
exactly when domains are configured in lower case). On a match, the
matching route's certificate is returned (unique by the domain-uniqueness
invariant); on no match, a listener with at least one route returns its
first route's certificate, never an error. -/
theorem getCertificate_lowered_match (listener : ListenerConfig) (serverName : String)
    (hUniq : ∀ r1 ∈ listener.routes, ∀ r2 ∈ listener.routes,
        ∀ d ∈ r1.domains, d ∈ r2.domains → r1 = r2) :
    (∀ r ∈ listener.routes, goToLower serverName ∈ r.domains →
        getCertificateForListener serverName listener = .ok (r.certFile, r.keyFile)) ∧
    ((∀ r ∈ listener.routes, goToLower serverName ∉ r.domains) →
        ∀ r0 rest, listener.routes = r0 :: rest →
          getCertificateForListener serverName listener = .ok (r0.certFile, r0.keyFile)) := by
  constructor
  · intro r hr hd
    have hsome : (listener.routes.find?
        (fun route => route.domains.contains (goToLower serverName))).isSome := by
      rw [List.find?_isSome]
      exact ⟨r, hr, by simpa [List.contains] using hd⟩
    obtain ⟨r', hfind⟩ := Option.isSome_iff_exists.mp hsome
    have hr'mem := List.mem_of_find?_eq_some hfind
    have hr'dom : goToLower serverName ∈ r'.domains := by
      have := List.find?_some hfind
      simpa [List.contains] using this
    have heq : r' = r := hUniq r' hr'mem r hr (goToLower serverName) hr'dom hd
    subst heq
    have hfind2 : List.find?
        (fun route => decide (goToLower serverName ∈ route.domains))
        listener.routes = some r' := by
      simpa using hfind
    simp [getCertificateForListener, hfind2]
  · intro hno r0 rest hroutes
    have hnone : listener.routes.find?
        (fun route => route.domains.contains (goToLower serverName)) = none := by
      rw [List.find?_eq_none]
      intro x hx
      simpa [List.contains] using hno x hx
    rw [hroutes] at hnone
    have hnone2 : List.find?
        (fun route => decide (goToLower serverName ∈ route.domains))
        (r0 :: rest) = none := by
      simpa using hnone
    simp [getCertificateForListener, hroutes, hnone2]

/-- Witness for the amended C4: a matched SNI differing only in case from
a lower-case domain, and an unconfigured SNI falling back to the first
route. -/
theorem getCertificate_lowered_match_witness :
    getCertificateForListener "B.com"
      { listenPort := ":443"
        routes := [{ domains := ["a.com", "www.a.com"], targetPort := "1000",
                     certFile := "ca.pem", keyFile := "ka.pem" },
                   { domains := ["b.com"], targetPort := "2000",
                     certFile := "cb.pem", keyFile := "kb.pem" }] } =
      .ok ("cb.pem", "kb.pem") ∧
    getCertificateForListener "zzz.com"
      { listenPort := ":443"
        routes := [{ domains := ["a.com", "www.a.com"], targetPort := "1000",
                     certFile := "ca.pem", keyFile := "ka.pem" },
                   { domains := ["b.com"], targetPort := "2000",
                     certFile := "cb.pem", keyFile := "kb.pem" }] } =
      .ok ("ca.pem", "ka.pem") := by
  constructor
  · exact (getCertificate_lowered_match
      { listenPort := ":443"
        routes := [{ domains := ["a.com", "www.a.com"], targetPort := "1000",
                     certFile := "ca.pem", keyFile := "ka.pem" },
                   { domains := ["b.com"], targetPort := "2000",
                     certFile := "cb.pem", keyFile := "kb.pem" }] } "B.com"
      (by decide)).1
      { domains := ["b.com"], targetPort := "2000",
        certFile := "cb.pem", keyFile := "kb.pem" } (by decide) (by decide)
  · exact (getCertificate_lowered_match
      { listenPort := ":443"
        routes := [{ domains := ["a.com", "www.a.com"], targetPort := "1000",
                     certFile := "ca.pem", keyFile := "ka.pem" },
                   { domains := ["b.com"], targetPort := "2000",
                     certFile := "cb.pem", keyFile := "kb.pem" }] } "zzz.com"
      (by decide)).2 (by decide)
      { domains := ["a.com", "www.a.com"], targetPort := "1000",
        certFile := "ca.pem", keyFile := "ka.pem" }
      [{ domains := ["b.com"], targetPort := "2000",
         certFile := "cb.pem", keyFile := "kb.pem" }] rfl

/-- Claim C5 fails on the code: a Host header equal (even verbatim) to
the configured domain `UP.com` is answered with 502 Unknown host, because
the router lower-cases only the request side. -/
theorem catchAll_ci_match_cex :
    (c5Listener.routes.get ⟨1, by decide⟩).domains = ["UP.com"] ∧
    ciEqual "UP.com" "UP.com" = true ∧
    (c5Listener.routes.get ⟨1, by decide⟩).targetPort = "2000" ∧
    catchAllHandler "UP.com" c5Listener = .unknownHost :=
  ⟨by decide, by decide, by decide, by decide⟩

/-- Claim C5 (amended): the catch-all handler forwards when the
LOWER-CASED Host header, with any port suffix stripped, equals some
configured domain verbatim (case-insensitive exactly when the domains are
configured in lower case), to that route's target port; when neither the
stripped nor the full lowered host equals any domain, it answers 502
Unknown host. -/
theorem catchAll_lowered_match (listener : ListenerConfig) (hostHeader : String)
    (hUniq : ∀ r1 ∈ listener.routes, ∀ r2 ∈ listener.routes,
        ∀ d ∈ r1.domains, d ∈ r2.domains → r1 = r2)
    (hNoColon : ∀ r ∈ listener.routes, ∀ d ∈ r.domains, ':' ∉ d.data) :
    (∀ r ∈ listener.routes,
        goSplitFirst ':' (goToLower hostHeader) ∈ r.domains →
        catchAllHandler hostHeader listener = .forward r.targetPort) ∧
    ((∀ r ∈ listener.routes,
        goSplitFirst ':' (goToLower hostHeader) ∉ r.domains ∧
        goToLower hostHeader ∉ r.domains) →
        catchAllHandler hostHeader listener = .unknownHost) := by
  constructor
  · intro r hr hd
    have hsome : (listener.routes.find? (fun route =>
        route.domains.any (fun domain =>
          goSplitFirst ':' (goToLower hostHeader) == domain ||
          goToLower hostHeader == domain))).isSome := by
      rw [List.find?_isSome]
      refine ⟨r, hr, ?_⟩
      simp only [List.any_eq_true]
      exact ⟨_, hd, by simp⟩
    obtain ⟨r', hfind⟩ := Option.isSome_iff_exists.mp hsome
    have hr'mem := List.mem_of_find?_eq_some hfind
    have hr'p := List.find?_some hfind
    simp only [List.any_eq_true, Bool.or_eq_true, beq_iff_eq] at hr'p
    obtain ⟨d, hdmem, hdisj⟩ := hr'p
    have hstrip : goSplitFirst ':' (goToLower hostHeader) = d := by
      rcases hdisj with h1 | h2
      · exact h1
      · rw [h2]
        exact goSplitFirst_of_not_mem (hNoColon r' hr'mem d hdmem)
    have hdr : d ∈ r.domains := hstrip ▸ hd
    have heq : r' = r := hUniq r' hr'mem r hr d hdmem hdr
    subst heq
    simp [catchAllHandler, routeForHost, hfind]
  · intro hall
    have hnone : listener.routes.find? (fun route =>
        route.domains.any (fun domain =>
          goSplitFirst ':' (goToLower hostHeader) == domain ||
          goToLower hostHeader == domain)) = none := by
      rw [List.find?_eq_none]
      intro x hx hpred
      simp only [List.any_eq_true, Bool.or_eq_true, beq_iff_eq] at hpred
      obtain ⟨d, hdmem, hdisj⟩ := hpred
      rcases hdisj with h1 | h2
      · exact (hall x hx).1 (h1 ▸ hdmem)
      · exact (hall x hx).2 (h2 ▸ hdmem)
    simp [catchAllHandler, routeForHost, hnone]

/-- Witness for the amended C5: a Host header with differing case and a
port suffix forwards to its route's port; an unknown host yields the 502
decision. -/
theorem catchAll_lowered_match_witness :
    catchAllHandler "B.com:443"
      { listenPort := ":443"
        routes := [{ domains := ["a.com"], targetPort := "1000",
                     certFile := "ca.pem", keyFile := "ka.pem" },
                   { domains := ["b.com"], targetPort := "2000",
                     certFile := "cb.pem", keyFile := "kb.pem" }] } = .forward "2000" ∧
    catchAllHandler "zzz.com"
      { listenPort := ":443"
        routes := [{ domains := ["a.com"], targetPort := "1000",
                     certFile := "ca.pem", keyFile := "ka.pem" },
                   { domains := ["b.com"], targetPort := "2000",
                     certFile := "cb.pem", keyFile := "kb.pem" }] } = .unknownHost := by
  constructor
  · exact (catchAll_lowered_match
      { listenPort := ":443"
        routes := [{ domains := ["a.com"], targetPort := "1000",
                     certFile := "ca.pem", keyFile := "ka.pem" },
                   { domains := ["b.com"], targetPort := "2000",
                     certFile := "cb.pem", keyFile := "kb.pem" }] } "B.com:443"
      (by decide) (by decide)).1
      { domains := ["b.com"], targetPort := "2000",
        certFile := "cb.pem", keyFile := "kb.pem" } (by decide) (by decide)
  · exact (catchAll_lowered_match
      { listenPort := ":443"
        routes := [{ domains := ["a.com"], targetPort := "1000",
                     certFile := "ca.pem", keyFile := "ka.pem" },
                   { domains := ["b.com"], targetPort := "2000",
                     certFile := "cb.pem", keyFile := "kb.pem" }] } "zzz.com"
      (by decide) (by decide)).2 (by decide)

end L8Web
